import Mathlib

/-!
Shallow embedding of the virtual file system in `VFS.py`
(class `VirtualFileSystem`).

Modelling conventions:

* Python dicts (which preserve insertion order and have unique keys) are
  association lists `List (κ × α)` with lookup / insert-or-update-in-place /
  erase helpers (`alookup`, `ainsert`, `aerase`).
* Python objects for directory-tree nodes are heap cells: the heap is an
  association list from a numeric node id to the node payload, so that the
  aliasing between `current_dir`, the tree and `open_files` (all of which
  hold references to the same dict objects in Python) is represented
  faithfully.
* The disk (`bytearray`) is a length together with a byte-valued function;
  CPython slice assignment `ba[a:b] = xs` (which may change the length of
  the bytearray) is `sliceAssign`.
* Machine-level strings: Python `str.split()`, `str.lower()` (on the ASCII
  range, which covers every command name), `s[:k]` (including a negative
  `k`) and `str.encode()` (UTF-8) are modelled explicitly.
* An uncaught Python exception (`KeyError`, `TypeError`, `ValueError`),
  which aborts the surrounding read-eval-print loop, is the `none` value of
  the `Option (VFSState × Output)` result of each operation.
-/

/-- Dict lookup: first value bound to the key, if any. -/
def alookup {κ : Type} {α : Type} [DecidableEq κ] : List (κ × α) → κ → Option α
  | [], _ => none
  | (k, v) :: rest, x => if x = k then some v else alookup rest x

/-- Dict write `d[k] = v`: update in place if present (dicts keep insertion
order), otherwise append at the end. -/
def ainsert {κ : Type} {α : Type} [DecidableEq κ] : List (κ × α) → κ → α → List (κ × α)
  | [], x, v => [(x, v)]
  | (k, w) :: rest, x, v =>
    if x = k then (k, v) :: rest else (k, w) :: ainsert rest x v

/-- Dict deletion `del d[k]`: removes the first binding of the key. -/
def aerase {κ : Type} {α : Type} [DecidableEq κ] : List (κ × α) → κ → List (κ × α)
  | [], _ => []
  | (k, w) :: rest, x => if x = k then rest else (k, w) :: aerase rest x

/-- Python index clamping for a slice bound `i` against a sequence of length
`len`: a negative index counts from the end, and the result is clamped to
`[0, len]`. -/
def pyIdx (len : Nat) (i : Int) : Nat :=
  if i < 0 then len - (-i).toNat else min i.toNat len

/-- Python `s[:k]` on a list of characters, including the negative-`k` case
(`s[:k]` with `k < 0` drops the last `-k` characters). -/
def pyTakeUpto (s : List Char) (k : Int) : List Char :=
  if k < 0 then s.take (s.length - (-k).toNat) else s.take k.toNat

/-- UTF-8 encoding of one unicode scalar value, as byte values. -/
def utf8Char (c : Char) : List Nat :=
  let n := c.toNat
  if n < 128 then [n]
  else if n < 2048 then [192 + n / 64, 128 + n % 64]
  else if n < 65536 then [224 + n / 4096, 128 + (n / 64) % 64, 128 + n % 64]
  else [240 + n / 262144, 128 + (n / 4096) % 64, 128 + (n / 64) % 64, 128 + n % 64]

/-- UTF-8 encoding of a character sequence (Python `str.encode()`). -/
def utf8 : List Char → List Nat
  | [] => []
  | c :: cs => utf8Char c ++ utf8 cs

/-- The virtual disk: a mutable byte sequence, kept as its current length
plus a byte-valued function (so that `bytearray` slice assignment, which
can change the length, stays cheap to reason about). -/
structure Disk where
  size : Nat
  data : Nat → Nat

/-- CPython semantics of `ba[a:b] = xs` on a bytearray (step-1 slice):
both bounds are clamped, an inverted range inserts at the lower bound, and
the byte sequence is spliced in, changing the length when `xs` has a
different length than the selected range. -/
def sliceAssign (d : Disk) (a b : Int) (xs : List Nat) : Disk :=
  let lo := pyIdx d.size a
  let hi := max lo (pyIdx d.size b)
  { size := d.size - (hi - lo) + xs.length
    data := fun i =>
      if i < lo then d.data i
      else if i < lo + xs.length then xs.getD (i - lo) 0
      else d.data (i - xs.length + (hi - lo)) }

/-- `bytearray(n)` for an integer `n`: `n` zero bytes, or a `ValueError`
(modelled as `none`) when `n` is negative. -/
def bytearrayNew (n : Int) : Option (List Nat) :=
  if n < 0 then none else some (List.replicate n.toNat 0)

/-- A directory-tree node object: a file dict (`{"content": …,
"type": "file"}`) or a directory dict (`{"type": "dir", "children": …}`)
whose children map names to node references. -/
inductive NodeObj where
  | file (content : String)
  | dir (children : List (String × Nat))
deriving DecidableEq

/-- One entry of `self.root`: the per-user record created by `register`
(`username`, `password`, and the user's FAT directory-tree root). -/
structure Account where
  username : String
  password : String
  fatRoot : Nat
deriving DecidableEq

/-- What an operation hands back to the read-eval-print loop: a message
string, or the list of names returned by `dir`. -/
inductive Output where
  | ostr (s : String)
  | olist (l : List String)
deriving DecidableEq

/-- The whole state of a `VirtualFileSystem` instance. `store`/`nextId`
form the heap of directory-tree node objects. -/
structure VFSState where
  store : List (Nat × NodeObj)
  nextId : Nat
  root : List (String × Account)
  current_user : Option String
  current_dir : Option Nat
  open_files : List (String × Nat)
  path : List String
  disk : Disk
  fat_table : List (String × (Int × Int))
  next_free_space : Int

/-- `VirtualFileSystem.__init__`: empty tables and a 1 MiB zeroed disk. -/
def vfsInit : VFSState :=
  { store := []
    nextId := 0
    root := []
    current_user := none
    current_dir := none
    open_files := []
    path := []
    disk := { size := 1024 * 1024, data := fun _ => 0 }
    fat_table := []
    next_free_space := 0 }

/-- `self.current_dir["children"]`: the current directory's node id and
children, or `none` for the `TypeError`/`KeyError` raised when
`current_dir` is `None` or (unreachably) a file node. -/
def getChildren (s : VFSState) : Option (Nat × List (String × Nat)) :=
  match s.current_dir with
  | none => none
  | some d =>
    match alookup s.store d with
    | some (NodeObj.dir ch) => some (d, ch)
    | _ => none

/-- `register(username, password)` (VFS.py lines 65-75): creates the user
record with a fresh empty FAT root directory node. -/
def register (s : VFSState) (username password : String) :
    Option (VFSState × Output) :=
  if (alookup s.root username).isSome then
    some (s, Output.ostr "User already exists.")
  else
    some ({ s with
              store := s.store ++ [(s.nextId, NodeObj.dir [])]
              nextId := s.nextId + 1
              root := s.root ++
                [(username, ⟨username, password, s.nextId⟩)] },
          Output.ostr ("User '" ++ username ++ "' registered successfully."))

/-- `login(username, password)` (lines 77-85): on success points the
session at the user's FAT root and clears the path stack. -/
def login (s : VFSState) (username password : String) :
    Option (VFSState × Output) :=
  match alookup s.root username with
  | some a =>
    if a.password = password then
      some ({ s with
                current_user := some username
                current_dir := some a.fatRoot
                path := [] },
            Output.ostr ("User '" ++ username ++ "' logged in successfully."))
    else some (s, Output.ostr "Login failed.")
  | none => some (s, Output.ostr "Login failed.")

/-- `logout()` (lines 87-96). Python tests `if self.current_user:`, which is
false for `None` and for the empty string (no reachable username is empty,
since tokens produced by `split()` are nonempty). -/
def logout (s : VFSState) : Option (VFSState × Output) :=
  match s.current_user with
  | some u =>
    if u = "" then some (s, Output.ostr "No user currently logged in.")
    else
      some ({ s with current_user := none, current_dir := none, path := [] },
            Output.ostr ("User '" ++ u ++ "' logged out successfully."))
  | none => some (s, Output.ostr "No user currently logged in.")

/-- `dir()` (lines 98-100): the children names of the current directory in
insertion order; crashes (`none`) when no user is logged in. -/
def dir (s : VFSState) : Option (VFSState × Output) :=
  match getChildren s with
  | some (_, ch) => some (s, Output.olist (ch.map Prod.fst))
  | none => none

/-- `create(filename)` (lines 102-109): inserts an empty file node into the
current directory and records the zero-length allocation
`(next_free_space, next_free_space)` in the FAT. -/
def create (s : VFSState) (filename : String) : Option (VFSState × Output) :=
  match getChildren s with
  | none => none
  | some (d, ch) =>
    if (alookup ch filename).isSome then
      some (s, Output.ostr "File already exists.")
    else
      some ({ s with
                store := ainsert (s.store ++ [(s.nextId, NodeObj.file "")]) d
                  (NodeObj.dir (ch ++ [(filename, s.nextId)]))
                nextId := s.nextId + 1
                fat_table := ainsert s.fat_table filename
                  (s.next_free_space, s.next_free_space) },
            Output.ostr ("File '" ++ filename ++ "' created."))

/-- One level of the recursion of `_build_file_paths` (lines 38-47): walk
a directory's children list, skipping files and descending into
subdirectories through `recNode`; only the termination/crash behaviour is
observable (the built path map is printed and discarded). -/
def buildChildren (store : List (Nat × NodeObj)) (recNode : Nat → Option Unit) :
    List (String × Nat) → Option Unit
  | [] => some ()
  | (_, cid) :: rest =>
    match alookup store cid with
    | some (NodeObj.file _) => buildChildren store recNode rest
    | some (NodeObj.dir _) =>
      match recNode cid with
      | some _ => buildChildren store recNode rest
      | none => none
    | none => none

/-- The descent of `_build_file_paths` into one directory node, driven by
fuel; reachable stores are acyclic, so a fuel of `store.length` always
suffices for the trees the program builds. -/
def buildNode (store : List (Nat × NodeObj)) : Nat → Nat → Option Unit
  | 0, _ => none
  | fuel + 1, id =>
    match alookup store id with
    | some (NodeObj.dir ch) => buildChildren store (buildNode store fuel) ch
    | _ => none

/-- `show_fat_table()` (lines 49-57): looks up `self.root[self.current_user]`
(a `KeyError` — `none` — when no user is logged in) and walks the user's
tree to print paths; state is not changed. -/
def showFat (s : VFSState) : Option Unit :=
  match s.current_user with
  | none => none
  | some u =>
    match alookup s.root u with
    | none => none
    | some a =>
      match alookup s.store a.fatRoot with
      | some (NodeObj.dir ch) =>
        buildChildren s.store (buildNode s.store s.store.length) ch
      | _ => none

/-- `delete(filename)` (lines 111-122): removes the tree entry, reads the
FAT record (an unguarded `self.fat_table[filename]` — `KeyError`/`none`
when the entry names a directory or a file with no FAT record), zero-fills
the disk range, resets the free-space cursor to the range start, drops the
FAT entry and calls `show_fat_table`. -/
def delete (s : VFSState) (filename : String) : Option (VFSState × Output) :=
  match getChildren s with
  | none => none
  | some (d, ch) =>
    match alookup ch filename with
    | none => some (s, Output.ostr "File not found.")
    | some _ =>
      match alookup s.fat_table filename with
      | none => none
      | some (file_start, file_end) =>
        match bytearrayNew (file_end - file_start) with
        | none => none
        | some zeros =>
          let s1 : VFSState :=
            { s with
                store := ainsert s.store d (NodeObj.dir (aerase ch filename))
                disk := sliceAssign s.disk file_start file_end zeros
                next_free_space := file_start
                fat_table := aerase s.fat_table filename }
          match showFat s1 with
          | none => none
          | some _ =>
            some (s1, Output.ostr ("File '" ++ filename ++ "' deleted."))

/-- `open(filename)` (lines 124-130; `open` is a Lean keyword): stores a
reference to the file node in the Open-File Table. It does not check the
node's type, so a directory can be "opened" too. -/
def openFile (s : VFSState) (filename : String) : Option (VFSState × Output) :=
  match getChildren s with
  | none => none
  | some (_, ch) =>
    match alookup ch filename with
    | some nid =>
      if (alookup s.open_files filename).isSome then
        some (s, Output.ostr "File not found or already opened.")
      else
        some ({ s with open_files := s.open_files ++ [(filename, nid)] },
              Output.ostr ("File '" ++ filename ++ "' opened."))
    | none => some (s, Output.ostr "File not found or already opened.")

/-- `close(filename)` (lines 132-138). -/
def close (s : VFSState) (filename : String) : Option (VFSState × Output) :=
  if (alookup s.open_files filename).isSome then
    some ({ s with open_files := aerase s.open_files filename },
          Output.ostr ("File '" ++ filename ++ "' closed."))
  else some (s, Output.ostr "File not opened.")

/-- `read(filename)` (lines 140-145; named `readFile` here to avoid the
ambiguity with the monadic `read` of the core library): the cached content
string of the node referenced by the Open-File Table (a `KeyError` —
`none` — when that node is a directory). -/
def readFile (s : VFSState) (filename : String) : Option (VFSState × Output) :=
  match alookup s.open_files filename with
  | none => some (s, Output.ostr "File not opened.")
  | some nid =>
    match alookup s.store nid with
    | some (NodeObj.file c) => some (s, Output.ostr c)
    | _ => none

/-- `write(filename, content)` (lines 147-158): reads the FAT record (an
unguarded `self.fat_table[filename]`, `KeyError`/`none` when absent),
computes `new_end = min(file_end + len(content), len(self.disk_space))`,
splices `content[:new_end - file_start].encode()` into
`disk_space[file_start:new_end]`, appends the whole `content` to the node's
cached string, updates the FAT record to `(file_start, new_end)` and moves
the free-space cursor to `new_end`. -/
def write (s : VFSState) (filename content : String) :
    Option (VFSState × Output) :=
  match alookup s.open_files filename with
  | none => some (s, Output.ostr "File not opened.")
  | some nid =>
    match alookup s.fat_table filename with
    | none => none
    | some (file_start, file_end) =>
      let new_end : Int :=
        min (file_end + (content.length : Int)) (s.disk.size : Int)
      match alookup s.store nid with
      | some (NodeObj.file old) =>
        some ({ s with
                  disk := sliceAssign s.disk file_start new_end
                    (utf8 (pyTakeUpto content.data (new_end - file_start)))
                  store := ainsert s.store nid (NodeObj.file (old ++ content))
                  fat_table := ainsert s.fat_table filename
                    (file_start, new_end)
                  next_free_space := new_end },
              Output.ostr "Content written to file.")
      | _ => none

/-- `_update_current_dir()` (lines 176-180): re-walk the tree from the
user's FAT root along the given path. A missing child or a file node in an
interior position raises `KeyError` (`none`); the final node is not
type-checked. -/
def walk (store : List (Nat × NodeObj)) : Nat → List String → Option Nat
  | id, [] => some id
  | id, n :: rest =>
    match alookup store id with
    | some (NodeObj.dir ch) =>
      match alookup ch n with
      | some cid => walk store cid rest
      | none => none
    | _ => none

/-- The state change of `_update_current_dir` after `self.path` has been
set to `newPath`: `root[current_user]` (`KeyError`/`none` if logged out)
then the walk. -/
def updateDir (s : VFSState) (newPath : List String) : Option VFSState :=
  match s.current_user with
  | none => none
  | some u =>
    match alookup s.root u with
    | none => none
    | some a =>
      match walk s.store a.fatRoot newPath with
      | some d => some { s with path := newPath, current_dir := some d }
      | none => none

/-- `cd(dirname)` (lines 160-174): `".."` pops the path stack (or reports
being at the root when it is empty); a child directory name is pushed;
both re-derive `current_dir` via `_update_current_dir`. -/
def cd (s : VFSState) (dirname : String) : Option (VFSState × Output) :=
  if dirname = ".." then
    match s.path with
    | [] => some (s, Output.ostr "Already at the root directory.")
    | _ :: _ =>
      match updateDir s s.path.dropLast with
      | some s1 => some (s1, Output.ostr "Returned to the parent directory.")
      | none => none
  else
    match getChildren s with
    | none => none
    | some (_, ch) =>
      match alookup ch dirname with
      | some cid =>
        match alookup s.store cid with
        | some (NodeObj.dir _) =>
          match updateDir s (s.path ++ [dirname]) with
          | some s1 =>
            some (s1, Output.ostr ("Changed directory to '" ++ dirname ++ "'."))
          | none => none
        | _ => some (s, Output.ostr "Directory not found.")
      | none => some (s, Output.ostr "Directory not found.")

/-- `rd(dirname)` (lines 182-188). -/
def rd (s : VFSState) (dirname : String) : Option (VFSState × Output) :=
  match getChildren s with
  | none => none
  | some (d, ch) =>
    match alookup ch dirname with
    | some cid =>
      match alookup s.store cid with
      | some (NodeObj.dir _) =>
        some ({ s with store := ainsert s.store d (NodeObj.dir (aerase ch dirname)) },
              Output.ostr ("Directory '" ++ dirname ++ "' deleted."))
      | _ => some (s, Output.ostr "Directory not found or is a file.")
    | none => some (s, Output.ostr "Directory not found or is a file.")

/-- `md(dirname)` (lines 190-196). -/
def md (s : VFSState) (dirname : String) : Option (VFSState × Output) :=
  match getChildren s with
  | none => none
  | some (d, ch) =>
    if (alookup ch dirname).isSome then
      some (s, Output.ostr "Directory already exists.")
    else
      some ({ s with
                store := ainsert (s.store ++ [(s.nextId, NodeObj.dir [])]) d
                  (NodeObj.dir (ch ++ [(dirname, s.nextId)]))
                nextId := s.nextId + 1 },
            Output.ostr ("Directory '" ++ dirname ++ "' created."))

/-- `display_disk_usage` (lines 59-63): sums the clamped widths of all FAT
ranges and prints; the dispatcher then returns the empty string. -/
def usedSpace (s : VFSState) : Nat :=
  (s.fat_table.map
    (fun p => pyIdx s.disk.size p.2.2 - pyIdx s.disk.size p.2.1)).sum

/-- The `diskusage` branch of `process_command` (lines 205-207). -/
def diskusage (s : VFSState) : Option (VFSState × Output) :=
  some (s, Output.ostr "")

/-- The `showfat` branch of `process_command` (lines 208-210). -/
def showfatCmd (s : VFSState) : Option (VFSState × Output) :=
  match showFat s with
  | some _ => some (s, Output.ostr "")
  | none => none

/-- Python `str.lower()` restricted to the ASCII letters (every command
name is ASCII), written as the explicit case table. -/
def pyLowerChar (c : Char) : Char :=
  if c = 'A' then 'a' else if c = 'B' then 'b' else if c = 'C' then 'c'
  else if c = 'D' then 'd' else if c = 'E' then 'e' else if c = 'F' then 'f'
  else if c = 'G' then 'g' else if c = 'H' then 'h' else if c = 'I' then 'i'
  else if c = 'J' then 'j' else if c = 'K' then 'k' else if c = 'L' then 'l'
  else if c = 'M' then 'm' else if c = 'N' then 'n' else if c = 'O' then 'o'
  else if c = 'P' then 'p' else if c = 'Q' then 'q' else if c = 'R' then 'r'
  else if c = 'S' then 's' else if c = 'T' then 't' else if c = 'U' then 'u'
  else if c = 'V' then 'v' else if c = 'W' then 'w' else if c = 'X' then 'x'
  else if c = 'Y' then 'y' else if c = 'Z' then 'z' else c

/-- `args[0].lower()`. -/
def pyLower (s : String) : String :=
  String.mk (s.data.map pyLowerChar)

/-- ASCII whitespace, the separators of Python `str.split()`. -/
def isPySpace (c : Char) : Bool :=
  c = ' ' ∨ c = '\t' ∨ c = '\n' ∨ c = '\x0d' ∨ c = '\x0b' ∨ c = '\x0c'

/-- Worker for `str.split()`: accumulate the current run of
non-whitespace characters (reversed). -/
def splitWsAux : List Char → List Char → List String
  | [], acc => if acc.isEmpty then [] else [String.mk acc.reverse]
  | c :: rest, acc =>
    if isPySpace c then
      if acc.isEmpty then splitWsAux rest []
      else String.mk acc.reverse :: splitWsAux rest []
    else splitWsAux rest (c :: acc)

/-- Python `command.split()`: whitespace-separated tokens, runs of
separators collapsed, no empty tokens. -/
def pySplit (s : String) : List String :=
  splitWsAux s.data []

/-- Python `" ".join(args[2:])` for the `write` command. -/
def joinSpace : List String → String
  | [] => ""
  | [x] => x
  | x :: xs => x ++ " " ++ joinSpace xs

/-- The generic rejection of `process_command` (line 239). -/
def invalidR (s : VFSState) : Option (VFSState × Output) :=
  some (s, Output.ostr "Invalid command or incorrect number of arguments.")

/-- The dispatch of `process_command` (lines 198-239) on the token list
produced by `split()`. The Python source is a single `elif` chain testing
`cmd == name and len(args) == arity`; since the command names of all
branches are distinct, testing the name first and the arity inside the
branch (falling through to the generic rejection) is the same function.
`logout` and `dir` (and `diskusage`/`showfat`) have no arity test in the
source, so they accept extra tokens. -/
def dispatchCmd (s : VFSState) (a0 : String) (rest : List String) :
    Option (VFSState × Output) :=
  if pyLower a0 = "diskusage" then diskusage s
  else if pyLower a0 = "showfat" then showfatCmd s
  else if pyLower a0 = "register" then
    match rest with
    | [u, p] => register s u p
    | _ => invalidR s
  else if pyLower a0 = "login" then
    match rest with
    | [u, p] => login s u p
    | _ => invalidR s
  else if pyLower a0 = "logout" then logout s
  else if pyLower a0 = "dir" then dir s
  else if pyLower a0 = "create" then
    match rest with
    | [f] => create s f
    | _ => invalidR s
  else if pyLower a0 = "del" then
    match rest with
    | [f] => delete s f
    | _ => invalidR s
  else if pyLower a0 = "open" then
    match rest with
    | [f] => openFile s f
    | _ => invalidR s
  else if pyLower a0 = "close" then
    match rest with
    | [f] => close s f
    | _ => invalidR s
  else if pyLower a0 = "read" then
    match rest with
    | [f] => readFile s f
    | _ => invalidR s
  else if pyLower a0 = "write" then
    match rest with
    | f :: c0 :: cs => write s f (joinSpace (c0 :: cs))
    | _ => invalidR s
  else if pyLower a0 = "cd" then
    match rest with
    | [d] => cd s d
    | _ => invalidR s
  else if pyLower a0 = "md" then
    match rest with
    | [d] => md s d
    | _ => invalidR s
  else if pyLower a0 = "rd" then
    match rest with
    | [d] => rd s d
    | _ => invalidR s
  else invalidR s

/-- The dispatch of `process_command` on the token list produced by
`split()`: an empty line is reported, otherwise the first token picks the
command via `dispatchCmd`. -/
def processTokens (s : VFSState) (args : List String) :
    Option (VFSState × Output) :=
  match args with
  | [] => some (s, Output.ostr "No command entered.")
  | a0 :: rest => dispatchCmd s a0 rest

/-- `process_command(command)`: split the line and dispatch. -/
def process_command (s : VFSState) (command : String) :
    Option (VFSState × Output) :=
  processTokens s (pySplit command)

/-- Run a sequence of command lines from a state, as the program's main
loop does; `none` as soon as one of them raises. -/
def runList : VFSState → List String → Option VFSState
  | s, [] => some s
  | s, c :: cs =>
    match process_command s c with
    | some (s1, _) => runList s1 cs
    | none => none

/-- The state after running the given command lines from the initial
state (used to name concrete reachable states; total via a default). -/
def stateOf (cs : List String) : VFSState :=
  (runList vfsInit cs).getD vfsInit

/-- States of the running program: everything the read-eval-print loop
can reach from a fresh `VirtualFileSystem` by processing command lines
(a line that raises kills the process and reaches nothing). -/
inductive Reach : VFSState → Prop
  | init : Reach vfsInit
  | step (s : VFSState) (c : String) (s1 : VFSState) (o : Output) :
      Reach s → process_command s c = some (s1, o) → Reach s1

/-- Concrete reachable state: a fresh user `u`, logged in. -/
def sLogged : VFSState :=
  stateOf ["register u p", "login u p"]

/-- Concrete reachable state: logged in, file `a` created and opened. -/
def sOpened : VFSState :=
  stateOf ["register u p", "login u p", "create a", "open a"]

/-- Concrete reachable state: logged in, file `a` created, opened, and
holding the two bytes `xy`. -/
def sWritten : VFSState :=
  stateOf ["register u p", "login u p", "create a", "open a", "write a xy"]

/-- Concrete reachable state: logged in, inside subdirectory `a`. -/
def sSubdir : VFSState :=
  stateOf ["register u p", "login u p", "md a", "cd a"]

/-- Command lines whose final state has overlapping FAT ranges: deleting
`a` rewinds the free-space cursor to 0 although `b` still occupies
`[2,4)`, so `c` is then written at `[0,3)`. -/
def overlapCmds : List String :=
  ["register u p", "login u p", "create a", "open a", "write a xy",
   "create b", "open b", "write b yz", "del a",
   "create c", "open c", "write c zzz"]

/-- The state reached by `overlapCmds`. -/
def sOverlap : VFSState :=
  stateOf overlapCmds

/-- Command lines that delete file `a` while it is open and then recreate
and write it: the stale Open-File Table entry keeps the old node alive, so
its content (`xyz`) is longer than the recreated FAT range `(0,1)`. -/
def staleCmds : List String :=
  ["register u p", "login u p", "create a", "open a", "write a xy",
   "del a", "create a", "write a z"]

/-- The state reached by `staleCmds`. -/
def sStale : VFSState :=
  stateOf staleCmds

/-- The FAT invariant as the specification states it: every range is
within bounds and ranges of distinct files do not overlap. -/
def fatClaimInvariant (s : VFSState) : Prop :=
  (∀ p ∈ s.fat_table,
      0 ≤ p.2.1 ∧ p.2.1 ≤ p.2.2 ∧ p.2.2 ≤ (s.disk.size : Int)) ∧
  ∀ p ∈ s.fat_table, ∀ q ∈ s.fat_table,
    p.1 ≠ q.1 → (p.2.2 ≤ q.2.1 ∨ q.2.2 ≤ p.2.1)

/-- The part of the FAT invariant the code does maintain: every recorded
offset is non-negative, and so is the free-space cursor. -/
def FatNonneg (s : VFSState) : Prop :=
  (∀ p ∈ s.fat_table, 0 ≤ p.2.1 ∧ 0 ≤ p.2.2) ∧ 0 ≤ s.next_free_space

/-- The experiment of the round-trip property: run
`create(f); open(f); write(f, s); read(f)` and keep `read`'s output. -/
def roundTrip (s : VFSState) (f str : String) : Option Output :=
  match create s f with
  | none => none
  | some (s1, _) =>
    match openFile s1 f with
    | none => none
    | some (s2, _) =>
      match write s2 f str with
      | none => none
      | some (s3, _) =>
        match readFile s3 f with
        | none => none
        | some (_, o) => some o

/-! Dictionary lemmas. -/

theorem alookup_ainsert_self {κ α : Type} [DecidableEq κ]
    (l : List (κ × α)) (k : κ) (v : α) :
    alookup (ainsert l k v) k = some v := by
  induction l with
  | nil => simp [ainsert, alookup]
  | cons p rest ih =>
    obtain ⟨k1, v1⟩ := p
    by_cases h : k = k1 <;> simp [ainsert, alookup, h, ih]

theorem alookup_ainsert_ne {κ α : Type} [DecidableEq κ]
    (l : List (κ × α)) (k x : κ) (v : α) (h : x ≠ k) :
    alookup (ainsert l k v) x = alookup l x := by
  induction l with
  | nil => simp [ainsert, alookup, h]
  | cons p rest ih =>
    obtain ⟨k1, v1⟩ := p
    by_cases h1 : k = k1
    · subst h1
      simp [ainsert, alookup, h]
    · by_cases h2 : x = k1 <;> simp [ainsert, alookup, h1, h2, ih]

theorem alookup_append_of_none {κ α : Type} [DecidableEq κ]
    (l1 l2 : List (κ × α)) (k : κ) (h : alookup l1 k = none) :
    alookup (l1 ++ l2) k = alookup l2 k := by
  induction l1 with
  | nil => simp
  | cons p rest ih =>
    obtain ⟨k1, v1⟩ := p
    by_cases h1 : k = k1
    · simp [alookup, h1] at h
    · simp [alookup, h1] at h ⊢
      exact ih h

theorem mem_ainsert {κ α : Type} [DecidableEq κ]
    {p : κ × α} {l : List (κ × α)} {k : κ} {v : α}
    (h : p ∈ ainsert l k v) : p = (k, v) ∨ p ∈ l := by
  induction l with
  | nil => simpa [ainsert] using h
  | cons q rest ih =>
    obtain ⟨k1, v1⟩ := q
    by_cases h1 : k = k1
    · subst h1
      simp [ainsert] at h
      rcases h with h | h
      · exact Or.inl (by simp [h])
      · exact Or.inr (by simp [h])
    · simp [ainsert, h1] at h
      rcases h with h | h
      · exact Or.inr (by simp [h])
      · rcases ih h with h2 | h2
        · exact Or.inl h2
        · exact Or.inr (by simp [h2])

theorem mem_of_mem_aerase {κ α : Type} [DecidableEq κ]
    {p : κ × α} {l : List (κ × α)} {k : κ}
    (h : p ∈ aerase l k) : p ∈ l := by
  induction l with
  | nil => simp [aerase] at h
  | cons q rest ih =>
    obtain ⟨k1, v1⟩ := q
    by_cases h1 : k = k1
    · subst h1
      simp [aerase] at h
      exact List.mem_cons_of_mem _ h
    · simp [aerase, h1] at h
      rcases h with h | h
      · simp [h]
      · exact List.mem_cons_of_mem _ (ih h)

theorem mem_of_alookup {κ α : Type} [DecidableEq κ]
    {l : List (κ × α)} {k : κ} {v : α}
    (h : alookup l k = some v) : (k, v) ∈ l := by
  induction l with
  | nil => simp [alookup] at h
  | cons q rest ih =>
    obtain ⟨k1, v1⟩ := q
    by_cases h1 : k = k1
    · subst h1
      simp [alookup] at h
      simp [h]
    · simp [alookup, h1] at h
      exact List.mem_cons_of_mem _ (ih h)

theorem getD_replicate_zero (n i : Nat) :
    (List.replicate n (0 : Nat)).getD i 0 = 0 := by
  induction n generalizing i with
  | zero => simp [List.getD]
  | succ m ih =>
    cases i with
    | zero => simp [List.replicate, List.getD]
    | succ j =>
      simp only [List.replicate, List.getD_cons_succ]
      exact ih j

theorem empty_append_str (s : String) : "" ++ s = s := by
  cases s
  rfl

theorem pyLowerChar_idem (c : Char) :
    pyLowerChar (pyLowerChar c) = pyLowerChar c := by
  by_cases hA : c = 'A'
  · subst hA; decide
  by_cases hB : c = 'B'
  · subst hB; decide
  by_cases hC : c = 'C'
  · subst hC; decide
  by_cases hD : c = 'D'
  · subst hD; decide
  by_cases hE : c = 'E'
  · subst hE; decide
  by_cases hF : c = 'F'
  · subst hF; decide
  by_cases hG : c = 'G'
  · subst hG; decide
  by_cases hH : c = 'H'
  · subst hH; decide
  by_cases hI : c = 'I'
  · subst hI; decide
  by_cases hJ : c = 'J'
  · subst hJ; decide
  by_cases hK : c = 'K'
  · subst hK; decide
  by_cases hL : c = 'L'
  · subst hL; decide
  by_cases hM : c = 'M'
  · subst hM; decide
  by_cases hN : c = 'N'
  · subst hN; decide
  by_cases hO : c = 'O'
  · subst hO; decide
  by_cases hP : c = 'P'
  · subst hP; decide
  by_cases hQ : c = 'Q'
  · subst hQ; decide
  by_cases hR : c = 'R'
  · subst hR; decide
  by_cases hS : c = 'S'
  · subst hS; decide
  by_cases hT : c = 'T'
  · subst hT; decide
  by_cases hU : c = 'U'
  · subst hU; decide
  by_cases hV : c = 'V'
  · subst hV; decide
  by_cases hW : c = 'W'
  · subst hW; decide
  by_cases hX : c = 'X'
  · subst hX; decide
  by_cases hY : c = 'Y'
  · subst hY; decide
  by_cases hZ : c = 'Z'
  · subst hZ; decide
  simp only [pyLowerChar, hA, hB, hC, hD, hE, hF, hG, hH, hI, hJ, hK, hL,
    hM, hN, hO, hP, hQ, hR, hS, hT, hU, hV, hW, hX, hY, hZ, if_false]

theorem pyLower_idem (s : String) : pyLower (pyLower s) = pyLower s := by
  cases s with
  | mk d =>
    show String.mk ((d.map pyLowerChar).map pyLowerChar) = String.mk (d.map pyLowerChar)
    rw [List.map_map]
    congr 1
    induction d with
    | nil => rfl
    | cons c cs ih => simp [pyLowerChar_idem, ih]

theorem readFile_of_open (s : VFSState) (f : String) (nid : Nat) (c : String)
    (h1 : alookup s.open_files f = some nid)
    (h2 : alookup s.store nid = some (NodeObj.file c)) :
    readFile s f = some (s, Output.ostr c) := by
  show (match alookup s.open_files f with
    | none => some (s, Output.ostr "File not opened.")
    | some nid =>
      match alookup s.store nid with
      | some (NodeObj.file c) => some (s, Output.ostr c)
      | _ => none) = some (s, Output.ostr c)
  rw [h1]
  simp only [h2]

/-! Claim theorems. -/

/-- C2: the claim that every core operation always returns a soft,
descriptive outcome fails on the code: `delete` reads
`self.fat_table[filename]` unguarded, so deleting a name that is present
in the current directory but has no FAT record — for example a directory
created by `md` — raises an uncaught `KeyError` and kills the process.
The command sequence below reaches that crash from a fresh system. -/
theorem C2_delete_keyerror_on_directory :
    runList vfsInit ["register u p", "login u p", "md d", "del d"] = none := by
  rfl

/-- C8: command-name matching is case-insensitive: the dispatcher matches
only on the lowercased first token, so any capitalisation of a command
name dispatches identically (same operation, same result). -/
theorem C8_case_insensitive_dispatch (s : VFSState) (t : String)
    (ts : List String) :
    processTokens s (t :: ts) = processTokens s (pyLower t :: ts) := by
  simp only [processTokens, dispatchCmd]
  rw [pyLower_idem]

/-- C7 counterexample: the claim says a token count that does not match
the command's arity (its own example: `logout` with extra tokens) is
rejected as invalid; but `process_command` has no arity test on `logout`
(nor on `dir`, `diskusage`, `showfat`), so `logout extra` invokes the
`logout` operation and returns its message, not the generic rejection. -/
theorem C7_counterexample :
    process_command vfsInit "logout extra" =
      some (vfsInit, Output.ostr "No user currently logged in.") ∧
    Output.ostr "No user currently logged in." ≠
      Output.ostr "Invalid command or incorrect number of arguments." := by
  exact ⟨rfl, by decide⟩

/-- C7 (amended): an unrecognised first token, or a wrong token count for
the arity-checked commands (`register`/`login` take 2 arguments,
`create`/`del`/`open`/`close`/`read`/`cd`/`md`/`rd` take 1, `write` takes
at least 2), yields the generic invalid-command result and leaves the
state untouched; `logout`, `dir`, `diskusage` and `showfat` are exempt
(they ignore extra tokens). -/
theorem C7_invalid_dispatch (s : VFSState) (a0 : String) (rest : List String) :
    (pyLower a0 ∉ (["diskusage", "showfat", "register", "login", "logout",
        "dir", "create", "del", "open", "close", "read", "write", "cd",
        "md", "rd"] : List String) →
      processTokens s (a0 :: rest) = invalidR s) ∧
    (pyLower a0 ∈ (["register", "login"] : List String) → rest.length ≠ 2 →
      processTokens s (a0 :: rest) = invalidR s) ∧
    (pyLower a0 ∈ (["create", "del", "open", "close", "read", "cd", "md",
        "rd"] : List String) → rest.length ≠ 1 →
      processTokens s (a0 :: rest) = invalidR s) ∧
    (pyLower a0 = "write" → rest.length < 2 →
      processTokens s (a0 :: rest) = invalidR s) := by
  refine ⟨?_, ?_, ?_, ?_⟩
  · intro h
    simp only [List.mem_cons, List.not_mem_nil, or_false, not_or] at h
    obtain ⟨h1, h2, h3, h4, h5, h6, h7, h8, h9, h10, h11, h12, h13, h14, h15⟩ := h
    simp only [processTokens, dispatchCmd]
    rw [if_neg h1, if_neg h2, if_neg h3, if_neg h4, if_neg h5, if_neg h6,
      if_neg h7, if_neg h8, if_neg h9, if_neg h10, if_neg h11, if_neg h12,
      if_neg h13, if_neg h14, if_neg h15]
  · intro hmem hlen
    simp only [List.mem_cons, List.not_mem_nil, or_false] at hmem
    rcases hmem with hc | hc <;>
      rcases rest with _ | ⟨b1, _ | ⟨b2, _ | ⟨b3, bs⟩⟩⟩ <;>
      first
        | exact absurd rfl hlen
        | simp [processTokens, dispatchCmd, hc, invalidR]
  · intro hmem hlen
    simp only [List.mem_cons, List.not_mem_nil, or_false] at hmem
    rcases hmem with hc | hc | hc | hc | hc | hc | hc | hc <;>
      rcases rest with _ | ⟨b1, _ | ⟨b2, bs⟩⟩ <;>
      first
        | exact absurd rfl hlen
        | simp [processTokens, dispatchCmd, hc, invalidR]
  · intro hc hlen
    rcases rest with _ | ⟨b1, _ | ⟨b2, bs⟩⟩
    · simp [processTokens, dispatchCmd, hc, invalidR]
    · simp [processTokens, dispatchCmd, hc, invalidR]
    · exfalso
      simp only [List.length_cons] at hlen
      omega

/-- C7 witness: an unrecognised command name and an arity violation both
hit the generic rejection, at the initial state. -/
theorem C7_invalid_dispatch_witness :
    processTokens vfsInit ["bogus"] = invalidR vfsInit ∧
    processTokens vfsInit ["create"] = invalidR vfsInit :=
  ⟨(C7_invalid_dispatch vfsInit "bogus" []).1 (by decide),
   (C7_invalid_dispatch vfsInit "create" []).2.2.1 (by decide) (by decide)⟩

/-- C1: round trip. For a fresh filename `f` (not in the current
directory and not lingering in the Open-File Table), a fresh heap id, and
a text `s` no longer than the remaining disk space,
`create(f); open(f); write(f, s); read(f)` returns exactly `s`. -/
theorem C1_round_trip (s : VFSState) (f str : String) (d : Nat)
    (ch : List (String × Nat))
    (hcd : s.current_dir = some d)
    (hsd : alookup s.store d = some (NodeObj.dir ch))
    (hfresh : alookup ch f = none)
    (hopen : alookup s.open_files f = none)
    (hid : alookup s.store s.nextId = none)
    (_hspace : (str.length : Int) ≤ (s.disk.size : Int) - s.next_free_space) :
    roundTrip s f str = some (Output.ostr str) := by
  have hdn : s.nextId ≠ d := by
    intro e
    rw [e, hsd] at hid
    exact Option.noConfusion hid
  have hch : getChildren s = some (d, ch) := by
    simp [getChildren, hcd, hsd]
  have hc1 : create s f = some
      ({ s with
           store := ainsert (s.store ++ [(s.nextId, NodeObj.file "")]) d
             (NodeObj.dir (ch ++ [(f, s.nextId)]))
           nextId := s.nextId + 1
           fat_table := ainsert s.fat_table f
             (s.next_free_space, s.next_free_space) },
       Output.ostr ("File '" ++ f ++ "' created.")) := by
    simp [create, hch, hfresh]
  have hlf : alookup (ch ++ [(f, s.nextId)]) f = some s.nextId := by
    rw [alookup_append_of_none _ _ _ hfresh]
    simp [alookup]
  have hc2 : openFile
      ({ s with
           store := ainsert (s.store ++ [(s.nextId, NodeObj.file "")]) d
             (NodeObj.dir (ch ++ [(f, s.nextId)]))
           nextId := s.nextId + 1
           fat_table := ainsert s.fat_table f
             (s.next_free_space, s.next_free_space) } : VFSState) f = some
      ({ s with
           store := ainsert (s.store ++ [(s.nextId, NodeObj.file "")]) d
             (NodeObj.dir (ch ++ [(f, s.nextId)]))
           nextId := s.nextId + 1
           fat_table := ainsert s.fat_table f
             (s.next_free_space, s.next_free_space)
           open_files := s.open_files ++ [(f, s.nextId)] },
       Output.ostr ("File '" ++ f ++ "' opened.")) := by
    simp [openFile, getChildren, hcd, alookup_ainsert_self, hlf, hopen]
  have hsn : alookup
      (ainsert (s.store ++ [(s.nextId, NodeObj.file "")]) d
        (NodeObj.dir (ch ++ [(f, s.nextId)]))) s.nextId
      = some (NodeObj.file "") := by
    rw [alookup_ainsert_ne _ _ _ _ hdn, alookup_append_of_none _ _ _ hid]
    simp [alookup]
  have hof : alookup (s.open_files ++ [(f, s.nextId)]) f = some s.nextId := by
    rw [alookup_append_of_none _ _ _ hopen]
    simp [alookup]
  simp only [roundTrip, hc1, hc2, write, hof, alookup_ainsert_self, hsn,
    readFile, empty_append_str]

/-- C1 witness: the round trip at a concrete reachable state (fresh user,
logged in), with the two-character text `hi`. -/
theorem C1_round_trip_witness :
    roundTrip sLogged "a" "hi" = some (Output.ostr "hi") :=
  C1_round_trip sLogged "a" "hi" 0 [] (by decide) (by decide) (by decide)
    (by decide) (by decide) (by decide)

/-- C4: for an open file with FAT record `(st, en)`, `write` computes
`new_end = min(en + len(content), bufferSize)` (the buffer's current
length), splices the truncated content bytes into `buffer[st:new_end]`,
updates the FAT record to `(st, new_end)`, moves the free-space cursor to
`new_end`, and reports success — never an error, also when truncating. -/
theorem C4_write_fat_and_cursor (s : VFSState) (f c : String) (st en : Int)
    (nid : Nat) (old : String)
    (hof : alookup s.open_files f = some nid)
    (hfat : alookup s.fat_table f = some (st, en))
    (hnode : alookup s.store nid = some (NodeObj.file old)) :
    write s f c = some
      ({ s with
           disk := sliceAssign s.disk st
             (min (en + (c.length : Int)) (s.disk.size : Int))
             (utf8 (pyTakeUpto c.data
               (min (en + (c.length : Int)) (s.disk.size : Int) - st)))
           store := ainsert s.store nid (NodeObj.file (old ++ c))
           fat_table := ainsert s.fat_table f
             (st, min (en + (c.length : Int)) (s.disk.size : Int))
           next_free_space := min (en + (c.length : Int)) (s.disk.size : Int) },
       Output.ostr "Content written to file.") := by
  simp only [write, hof, hfat, hnode]

/-- C4 witness: writing `xy` to the freshly created and opened file `a`
(FAT record `(0, 0)`): `new_end = 2`, the record becomes `(0, 2)`, the
cursor moves to 2, and the two bytes land at `buffer[0:2]`. -/
theorem C4_write_fat_and_cursor_witness :
    write sOpened "a" "xy" = some
      ({ sOpened with
           disk := sliceAssign sOpened.disk 0 2 (utf8 (pyTakeUpto "xy".data 2))
           store := ainsert sOpened.store 1 (NodeObj.file "xy")
           fat_table := ainsert sOpened.fat_table "a" (0, 2)
           next_free_space := 2 },
       Output.ostr "Content written to file.") :=
  C4_write_fat_and_cursor sOpened "a" "xy" 0 0 1 ""
    (by decide) (by decide) (by decide)

/-- C5: for a file `f` of the current directory with a sane FAT record
`(st, en)` (`0 ≤ st ≤ en ≤` buffer length, as in every ordinarily reached
state), `delete(f)` zero-fills `buffer[st:en]` — so position `i` of the
range reads back as zero — removes `f` from the directory and from the
FAT, and resets the free-space cursor to `st`. -/
theorem C5_delete_reclaims (s : VFSState) (f : String) (d : Nat)
    (ch : List (String × Nat)) (nid : Nat) (st en : Int) (i : Nat)
    (hcd : s.current_dir = some d)
    (hsd : alookup s.store d = some (NodeObj.dir ch))
    (hin : alookup ch f = some nid)
    (hfat : alookup s.fat_table f = some (st, en))
    (hst : 0 ≤ st) (hle : st ≤ en) (hen : en ≤ (s.disk.size : Int))
    (hsf : showFat { s with
        store := ainsert s.store d (NodeObj.dir (aerase ch f))
        disk := sliceAssign s.disk st en (List.replicate (en - st).toNat 0)
        next_free_space := st
        fat_table := aerase s.fat_table f } = some ()) :
    delete s f = some
      ({ s with
           store := ainsert s.store d (NodeObj.dir (aerase ch f))
           disk := sliceAssign s.disk st en (List.replicate (en - st).toNat 0)
           next_free_space := st
           fat_table := aerase s.fat_table f },
       Output.ostr ("File '" ++ f ++ "' deleted.")) ∧
    (st.toNat ≤ i → i < en.toNat →
      (sliceAssign s.disk st en (List.replicate (en - st).toNat 0)).data i
        = 0) := by
  have hch : getChildren s = some (d, ch) := by
    simp [getChildren, hcd, hsd]
  have hba : bytearrayNew (en - st)
      = some (List.replicate (en - st).toNat 0) := by
    unfold bytearrayNew
    rw [if_neg (by omega : ¬(en - st < 0))]
  constructor
  · simp only [delete, hch, hin, hfat, hba, hsf]
  · intro h1 h2
    have hlo : pyIdx s.disk.size st = st.toNat := by
      unfold pyIdx
      rw [if_neg (by omega : ¬(st < 0))]
      omega
    have hhi : pyIdx s.disk.size en = en.toNat := by
      unfold pyIdx
      rw [if_neg (by omega : ¬(en < 0))]
      omega
    simp only [sliceAssign, hlo, hhi, List.length_replicate]
    rw [if_neg (by omega : ¬(i < st.toNat)),
      if_pos (by omega : i < st.toNat + (en - st).toNat)]
    exact getD_replicate_zero _ _

/-- C5 witness: deleting file `a` (record `(0,2)`, holding `xy`) at the
concrete state `sWritten`: the tree and FAT entries go away, the cursor
returns to 0 and byte 1 of the freed range reads back as zero. -/
theorem C5_delete_reclaims_witness :
    delete sWritten "a" = some
      ({ sWritten with
           store := ainsert sWritten.store 0 (NodeObj.dir (aerase [("a", 1)] "a"))
           disk := sliceAssign sWritten.disk 0 2 (List.replicate 2 0)
           next_free_space := 0
           fat_table := aerase sWritten.fat_table "a" },
       Output.ostr "File 'a' deleted.") ∧
    (sliceAssign sWritten.disk 0 2 (List.replicate 2 0)).data 1 = 0 :=
  ⟨(C5_delete_reclaims sWritten "a" 0 [("a", 1)] 1 0 2 1 (by decide)
      (by decide) (by decide) (by decide) (by decide) (by decide) (by decide)
      (by decide)).1,
   (C5_delete_reclaims sWritten "a" 0 [("a", 1)] 1 0 2 1 (by decide)
      (by decide) (by decide) (by decide) (by decide) (by decide) (by decide)
      (by decide)).2 (by decide) (by decide)⟩

/-- C6: `cd ".."` at an empty path stack reports being at the root and
changes nothing; at a non-empty stack it pops the last element and
recomputes the working directory by walking from the logged-in user's FAT
root along the shortened stack. -/
theorem C6_cd_parent (s : VFSState) :
    (s.path = [] →
      cd s ".." = some (s, Output.ostr "Already at the root directory.")) ∧
    (∀ (u : String) (a : Account) (d : Nat),
      s.path ≠ [] → s.current_user = some u → alookup s.root u = some a →
      walk s.store a.fatRoot s.path.dropLast = some d →
      cd s ".." = some
        ({ s with path := s.path.dropLast, current_dir := some d },
         Output.ostr "Returned to the parent directory.")) := by
  constructor
  · intro hp
    simp [cd, hp]
  · intro u a d hp hu hru hw
    rcases List.exists_cons_of_ne_nil hp with ⟨p0, ps, hps⟩
    simp only [cd]
    rw [hps] at hw ⊢
    simp [updateDir, hu, hru, hw]

/-- C6 witness: at the initial state (empty stack) `cd ".."` reports the
root boundary; in subdirectory `a` of user `u` it pops back to the user's
FAT root (node 0). -/
theorem C6_cd_parent_witness :
    cd vfsInit ".." = some
      (vfsInit, Output.ostr "Already at the root directory.") ∧
    cd sSubdir ".." = some
      ({ sSubdir with path := sSubdir.path.dropLast, current_dir := some 0 },
       Output.ostr "Returned to the parent directory.") :=
  ⟨(C6_cd_parent vfsInit).1 rfl,
   (C6_cd_parent sSubdir).2 "u" ⟨"u", "p", 0⟩ 0 (by decide) (by decide)
     (by decide) (by decide)⟩

/-- C9: the cached content string is never truncated. Every successful
`write` extends the open node's content by the whole text (also when the
disk splice is clipped), and in the concrete state `sStale` (file deleted
while open, then recreated and written) `read` returns three characters
although the file's FAT range `(0, 1)` holds one byte. -/
theorem C9_content_never_truncated :
    (∀ (s : VFSState) (f c : String) (nid : Nat) (old : String) (st en : Int),
      alookup s.open_files f = some nid →
      alookup s.fat_table f = some (st, en) →
      alookup s.store nid = some (NodeObj.file old) →
      ((write s f c).map fun p => alookup p.1.store nid)
        = some (some (NodeObj.file (old ++ c)))) ∧
    (readFile sStale "a" = some (sStale, Output.ostr "xyz") ∧
     alookup sStale.fat_table "a" = some (0, 1) ∧
     (1 : Int) - 0 < (("xyz" : String).length : Int)) := by
  constructor
  · intro s f c nid old st en hof hfat hnode
    simp [write, hof, hfat, hnode, alookup_ainsert_self]
  · exact ⟨rfl, by decide, by decide⟩

/-- C9 witness: the universal part applied at the concrete opened file
`a` (node 1, empty content): writing `xy` leaves the node holding all of
`xy`. -/
theorem C9_content_never_truncated_witness :
    ((write sOpened "a" "xy").map fun p => alookup p.1.store 1)
      = some (some (NodeObj.file "xy")) :=
  C9_content_never_truncated.1 sOpened "a" "xy" 1 "" 0 0
    (by decide) (by decide) (by decide)

/-- C10: `delete` leaves the Open-File Table untouched: a file `f` that
is open when `delete f` succeeds is still open afterwards, `read f` still
returns the content it had before the deletion, and `close f` still
succeeds. -/
theorem C10_delete_keeps_open_table (s : VFSState) (f : String) (d : Nat)
    (ch : List (String × Nat)) (nid m : Nat) (st en : Int) (c : String)
    (hcd : s.current_dir = some d)
    (hsd : alookup s.store d = some (NodeObj.dir ch))
    (hin : alookup ch f = some nid)
    (hfat : alookup s.fat_table f = some (st, en))
    (hle : st ≤ en)
    (hof : alookup s.open_files f = some m)
    (hm : alookup s.store m = some (NodeObj.file c))
    (hsf : showFat { s with
        store := ainsert s.store d (NodeObj.dir (aerase ch f))
        disk := sliceAssign s.disk st en (List.replicate (en - st).toNat 0)
        next_free_space := st
        fat_table := aerase s.fat_table f } = some ()) :
    ∃ s1, delete s f = some
        (s1, Output.ostr ("File '" ++ f ++ "' deleted.")) ∧
      s1.open_files = s.open_files ∧
      readFile s f = some (s, Output.ostr c) ∧
      readFile s1 f = some (s1, Output.ostr c) ∧
      close s1 f = some
        ({ s1 with open_files := aerase s1.open_files f },
         Output.ostr ("File '" ++ f ++ "' closed.")) := by
  have hch : getChildren s = some (d, ch) := by
    simp [getChildren, hcd, hsd]
  have hba : bytearrayNew (en - st)
      = some (List.replicate (en - st).toNat 0) := by
    unfold bytearrayNew
    rw [if_neg (by omega : ¬(en - st < 0))]
  have hmd : m ≠ d := by
    intro e
    rw [e, hsd] at hm
    simp at hm
  refine ⟨{ s with
      store := ainsert s.store d (NodeObj.dir (aerase ch f))
      disk := sliceAssign s.disk st en (List.replicate (en - st).toNat 0)
      next_free_space := st
      fat_table := aerase s.fat_table f }, ?_, rfl, ?_, ?_, ?_⟩
  · simp only [delete, hch, hin, hfat, hba, hsf]
  · exact readFile_of_open s f m c hof hm
  · refine readFile_of_open _ f m c hof ?_
    show alookup (ainsert s.store d (NodeObj.dir (aerase ch f))) m
      = some (NodeObj.file c)
    rw [alookup_ainsert_ne _ _ _ _ hmd]
    exact hm
  · simp [close, hof]

/-- C10 witness: deleting `a` at `sWritten` (where `a` is open, node 1,
content `xy`): the Open-File Table is unchanged, `read` still answers
`xy`, and `close` still succeeds. -/
theorem C10_delete_keeps_open_table_witness :
    ∃ s1, delete sWritten "a" = some
        (s1, Output.ostr "File 'a' deleted.") ∧
      s1.open_files = sWritten.open_files ∧
      readFile sWritten "a" = some (sWritten, Output.ostr "xy") ∧
      readFile s1 "a" = some (s1, Output.ostr "xy") ∧
      close s1 "a" = some
        ({ s1 with open_files := aerase s1.open_files "a" },
         Output.ostr "File 'a' closed.") :=
  C10_delete_keeps_open_table sWritten "a" 0 [("a", 1)] 1 1 0 2 "xy"
    (by decide) (by decide) (by decide) (by decide) (by decide) (by decide)
    (by decide) (by decide)

/-- C3 counterexample: the FAT invariant fails in a reachable state.
After `overlapCmds`, deleting `a` has reset the free-space cursor to 0
while `b` still occupies `[2,4)`, so the subsequent file `c` was written
at `[0,3)`: the ranges of `b` and `c` overlap. -/
theorem C3_counterexample :
    ∃ s, runList vfsInit overlapCmds = some s ∧ ¬ fatClaimInvariant s := by
  refine ⟨sOverlap, rfl, ?_⟩
  unfold fatClaimInvariant
  decide

/-! Preservation of `FatNonneg` by every operation, towards the amended
form of the FAT invariant over all reachable states. -/

theorem updateDir_fields {s s1 : VFSState} {np : List String}
    (h : updateDir s np = some s1) :
    s1.fat_table = s.fat_table ∧ s1.next_free_space = s.next_free_space := by
  unfold updateDir at h
  repeat' split at h
  all_goals cases h
  all_goals exact ⟨rfl, rfl⟩

theorem fatNonneg_register {s s1 : VFSState} {u p : String} {o : Output}
    (hInv : FatNonneg s) (h : register s u p = some (s1, o)) : FatNonneg s1 := by
  unfold register at h
  repeat' split at h
  all_goals cases h
  all_goals exact hInv

theorem fatNonneg_login {s s1 : VFSState} {u p : String} {o : Output}
    (hInv : FatNonneg s) (h : login s u p = some (s1, o)) : FatNonneg s1 := by
  unfold login at h
  repeat' split at h
  all_goals cases h
  all_goals exact hInv

theorem fatNonneg_logout {s s1 : VFSState} {o : Output}
    (hInv : FatNonneg s) (h : logout s = some (s1, o)) : FatNonneg s1 := by
  unfold logout at h
  repeat' split at h
  all_goals cases h
  all_goals exact hInv

theorem fatNonneg_dir {s s1 : VFSState} {o : Output}
    (hInv : FatNonneg s) (h : dir s = some (s1, o)) : FatNonneg s1 := by
  unfold dir at h
  repeat' split at h
  all_goals cases h
  all_goals exact hInv

theorem fatNonneg_openFile {s s1 : VFSState} {f : String} {o : Output}
    (hInv : FatNonneg s) (h : openFile s f = some (s1, o)) : FatNonneg s1 := by
  unfold openFile at h
  repeat' split at h
  all_goals cases h
  all_goals exact hInv

theorem fatNonneg_close {s s1 : VFSState} {f : String} {o : Output}
    (hInv : FatNonneg s) (h : close s f = some (s1, o)) : FatNonneg s1 := by
  unfold close at h
  repeat' split at h
  all_goals cases h
  all_goals exact hInv

theorem fatNonneg_readFile {s s1 : VFSState} {f : String} {o : Output}
    (hInv : FatNonneg s) (h : readFile s f = some (s1, o)) : FatNonneg s1 := by
  unfold readFile at h
  repeat' split at h
  all_goals cases h
  all_goals exact hInv

theorem fatNonneg_md {s s1 : VFSState} {dn : String} {o : Output}
    (hInv : FatNonneg s) (h : md s dn = some (s1, o)) : FatNonneg s1 := by
  unfold md at h
  repeat' split at h
  all_goals cases h
  all_goals exact hInv

theorem fatNonneg_rd {s s1 : VFSState} {dn : String} {o : Output}
    (hInv : FatNonneg s) (h : rd s dn = some (s1, o)) : FatNonneg s1 := by
  unfold rd at h
  repeat' split at h
  all_goals cases h
  all_goals exact hInv

theorem fatNonneg_diskusage {s s1 : VFSState} {o : Output}
    (hInv : FatNonneg s) (h : diskusage s = some (s1, o)) : FatNonneg s1 := by
  unfold diskusage at h
  cases h
  exact hInv

theorem fatNonneg_showfatCmd {s s1 : VFSState} {o : Output}
    (hInv : FatNonneg s) (h : showfatCmd s = some (s1, o)) : FatNonneg s1 := by
  unfold showfatCmd at h
  repeat' split at h
  all_goals cases h
  all_goals exact hInv

theorem fatNonneg_cd {s s1 : VFSState} {dn : String} {o : Output}
    (hInv : FatNonneg s) (h : cd s dn = some (s1, o)) : FatNonneg s1 := by
  unfold cd at h
  split at h
  · split at h
    · cases h
      exact hInv
    · split at h
      · rename_i s2 heq
        cases h
        obtain ⟨h1, h2⟩ := updateDir_fields heq
        exact ⟨by rw [h1]; exact hInv.1, by rw [h2]; exact hInv.2⟩
      · cases h
  · split at h
    · cases h
    · split at h
      · split at h
        · split at h
          · rename_i s2 heq
            cases h
            obtain ⟨h1, h2⟩ := updateDir_fields heq
            exact ⟨by rw [h1]; exact hInv.1, by rw [h2]; exact hInv.2⟩
          · cases h
        · cases h
          exact hInv
      · cases h
        exact hInv

theorem fatNonneg_create {s s1 : VFSState} {f : String} {o : Output}
    (hInv : FatNonneg s) (h : create s f = some (s1, o)) : FatNonneg s1 := by
  unfold create at h
  split at h
  · cases h
  · split at h
    · cases h
      exact hInv
    · cases h
      refine ⟨?_, hInv.2⟩
      intro p hp
      rcases mem_ainsert hp with he | hm
      · rw [he]
        exact ⟨hInv.2, hInv.2⟩
      · exact hInv.1 p hm

theorem fatNonneg_delete {s s1 : VFSState} {f : String} {o : Output}
    (hInv : FatNonneg s) (h : delete s f = some (s1, o)) : FatNonneg s1 := by
  unfold delete at h
  split at h
  · cases h
  · split at h
    · cases h
      exact hInv
    · split at h
      · cases h
      · rename_i fs fe heq
        split at h
        · cases h
        · dsimp only at h
          split at h
          · cases h
          · cases h
            refine ⟨?_, (hInv.1 _ (mem_of_alookup heq)).1⟩
            intro p hp
            exact hInv.1 p (mem_of_mem_aerase hp)

theorem fatNonneg_write {s s1 : VFSState} {f c : String} {o : Output}
    (hInv : FatNonneg s) (h : write s f c = some (s1, o)) : FatNonneg s1 := by
  unfold write at h
  split at h
  · cases h
    exact hInv
  · split at h
    · cases h
    · rename_i fs fe heq
      split at h
      · cases h
        refine ⟨?_, le_min
          (add_nonneg (hInv.1 _ (mem_of_alookup heq)).2 (Int.natCast_nonneg _))
          (Int.natCast_nonneg _)⟩
        intro p hp
        rcases mem_ainsert hp with he | hm
        · rw [he]
          exact ⟨(hInv.1 _ (mem_of_alookup heq)).1,
            le_min (add_nonneg (hInv.1 _ (mem_of_alookup heq)).2
                (Int.natCast_nonneg _))
              (Int.natCast_nonneg _)⟩
        · exact hInv.1 p hm
      · cases h

theorem fatNonneg_dispatchCmd {s s1 : VFSState} {o : Output}
    (a0 : String) (rest : List String) (hInv : FatNonneg s)
    (h : dispatchCmd s a0 rest = some (s1, o)) : FatNonneg s1 := by
  unfold dispatchCmd at h
  by_cases h1 : pyLower a0 = "diskusage"
  · rw [if_pos h1] at h
    exact fatNonneg_diskusage hInv h
  rw [if_neg h1] at h
  by_cases h2 : pyLower a0 = "showfat"
  · rw [if_pos h2] at h
    exact fatNonneg_showfatCmd hInv h
  rw [if_neg h2] at h
  by_cases h3 : pyLower a0 = "register"
  · rw [if_pos h3] at h
    split at h
    · exact fatNonneg_register hInv h
    · unfold invalidR at h
      cases h
      exact hInv
  rw [if_neg h3] at h
  by_cases h4 : pyLower a0 = "login"
  · rw [if_pos h4] at h
    split at h
    · exact fatNonneg_login hInv h
    · unfold invalidR at h
      cases h
      exact hInv
  rw [if_neg h4] at h
  by_cases h5 : pyLower a0 = "logout"
  · rw [if_pos h5] at h
    exact fatNonneg_logout hInv h
  rw [if_neg h5] at h
  by_cases h6 : pyLower a0 = "dir"
  · rw [if_pos h6] at h
    exact fatNonneg_dir hInv h
  rw [if_neg h6] at h
  by_cases h7 : pyLower a0 = "create"
  · rw [if_pos h7] at h
    split at h
    · exact fatNonneg_create hInv h
    · unfold invalidR at h
      cases h
      exact hInv
  rw [if_neg h7] at h
  by_cases h8 : pyLower a0 = "del"
  · rw [if_pos h8] at h
    split at h
    · exact fatNonneg_delete hInv h
    · unfold invalidR at h
      cases h
      exact hInv
  rw [if_neg h8] at h
  by_cases h9 : pyLower a0 = "open"
  · rw [if_pos h9] at h
    split at h
    · exact fatNonneg_openFile hInv h
    · unfold invalidR at h
      cases h
      exact hInv
  rw [if_neg h9] at h
  by_cases h10 : pyLower a0 = "close"
  · rw [if_pos h10] at h
    split at h
    · exact fatNonneg_close hInv h
    · unfold invalidR at h
      cases h
      exact hInv
  rw [if_neg h10] at h
  by_cases h11 : pyLower a0 = "read"
  · rw [if_pos h11] at h
    split at h
    · exact fatNonneg_readFile hInv h
    · unfold invalidR at h
      cases h
      exact hInv
  rw [if_neg h11] at h
  by_cases h12 : pyLower a0 = "write"
  · rw [if_pos h12] at h
    split at h
    · exact fatNonneg_write hInv h
    · unfold invalidR at h
      cases h
      exact hInv
  rw [if_neg h12] at h
  by_cases h13 : pyLower a0 = "cd"
  · rw [if_pos h13] at h
    split at h
    · exact fatNonneg_cd hInv h
    · unfold invalidR at h
      cases h
      exact hInv
  rw [if_neg h13] at h
  by_cases h14 : pyLower a0 = "md"
  · rw [if_pos h14] at h
    split at h
    · exact fatNonneg_md hInv h
    · unfold invalidR at h
      cases h
      exact hInv
  rw [if_neg h14] at h
  by_cases h15 : pyLower a0 = "rd"
  · rw [if_pos h15] at h
    split at h
    · exact fatNonneg_rd hInv h
    · unfold invalidR at h
      cases h
      exact hInv
  rw [if_neg h15] at h
  unfold invalidR at h
  cases h
  exact hInv

theorem fatNonneg_processTokens {s s1 : VFSState} {o : Output}
    (args : List String) (hInv : FatNonneg s)
    (h : processTokens s args = some (s1, o)) : FatNonneg s1 := by
  cases args with
  | nil =>
    simp only [processTokens] at h
    cases h
    exact hInv
  | cons a0 rest =>
    simp only [processTokens] at h
    exact fatNonneg_dispatchCmd a0 rest hInv h

theorem fatNonneg_process_command {s s1 : VFSState} {c : String} {o : Output}
    (hInv : FatNonneg s) (h : process_command s c = some (s1, o)) :
    FatNonneg s1 :=
  fatNonneg_processTokens (pySplit c) hInv h

theorem fatNonneg_reach {s : VFSState} (h : Reach s) : FatNonneg s := by
  induction h with
  | init => exact ⟨fun p hp => absurd hp (List.not_mem_nil p), le_refl 0⟩
  | step s2 c s3 o hR hpc ih => exact fatNonneg_process_command ih hpc

/-- C3 (amended): in every reachable state, every FAT entry `(start, end)`
satisfies `0 ≤ start` and `0 ≤ end`. The rest of the claimed invariant is
not maintained by the code: ranges of distinct files can overlap (see the
counterexample), because `delete` rewinds the single free-space cursor to
the freed range's start. -/
theorem C3_fat_offsets_nonneg (s : VFSState) (h : Reach s) :
    ∀ p ∈ s.fat_table, 0 ≤ p.2.1 ∧ 0 ≤ p.2.2 :=
  (fatNonneg_reach h).1

/-- C3 witness: the invariant instantiated at the concrete reachable
state `sOpened` (reached by four commands) and its FAT entry for `a`. -/
theorem C3_fat_offsets_nonneg_witness :
    (0 : Int) ≤ 0 ∧ (0 : Int) ≤ 0 :=
  C3_fat_offsets_nonneg sOpened
    (Reach.step _ "open a" _ _
      (Reach.step _ "create a" _ _
        (Reach.step _ "login u p" _ _
          (Reach.step _ "register u p" _ _ Reach.init rfl) rfl) rfl) rfl)
    ("a", (0, 0)) (by decide)
